import Mathlib

/-!
Verification of the compilation-orchestration and diagnostic-extraction
core of `src/src-tauri/src/main.rs` (functions `compile_latex`,
`handle_compilation_result`, and the constructors `CompileError::simple`
/ `CompileError::sys`).

Modelling conventions:
* Rust strings are modelled as `List Char` where character-level work is
  done (`String.data`); messages and paths stay `String`.
  The Unicode whitespace/digit classes used by `str::trim` and the
  `regex` crate are modelled by `Char.isWhitespace` / `Char.isDigit`,
  which agree on the ASCII compiler-log format at issue.
* The filesystem and the external `tectonic` subprocess are an abstract
  environment `Env`: each system call the Rust code makes is a field of
  `Env` giving that call's response.  Within one `compile_latex` call the
  artifact filesystem is a fixed map `fileContents : String → Option
  (List Nat)` (a path's byte contents); `Path::exists` is `Option.isSome`
  of it and `fs::read` returns the mapped contents, so a read error on a
  file that was just seen to exist (a race or permission flip between
  lines 109 and 110 of `main.rs`) is outside the model.
* Every attempted system call is also recorded in an effect trace
  (`List Effect`), so "before any subprocess is spawned" and "the source
  file was overwritten" are statements about the trace.
-/

namespace MyMD

/-! ### Character-list primitives (Rust `str` operations) -/

/-- Rust `str::trim`: drop leading and trailing whitespace. -/
def trimChars (s : List Char) : List Char :=
  ((s.dropWhile Char.isWhitespace).reverse.dropWhile Char.isWhitespace).reverse

/-- `startsWithChars pre s`: Rust `str::starts_with` / an anchored `^`
regex match of the literal `pre` against `s`. -/
def startsWithChars : List Char → List Char → Bool
  | [], _ => true
  | _ :: _, [] => false
  | p :: ps, c :: cs => p = c && startsWithChars ps cs

/-- Split a character list at every occurrence of `sep` (the separator is
dropped; `n` separators yield `n+1` groups, as Rust `split`). -/
def splitOnChar (sep : Char) : List Char → List (List Char)
  | [] => [[]]
  | c :: cs =>
    let r := splitOnChar sep cs
    if c = sep then [] :: r
    else
      match r with
      | [] => [[c]]
      | g :: gs => (c :: g) :: gs

/-- Rust `str::lines` (used at `main.rs:91`): split on `'\n'`, do not
yield a final empty segment, and strip one trailing `'\r'` from each
line (`"\r\n"` endings). -/
def rustLines (s : List Char) : List (List Char) :=
  let parts := splitOnChar '\n' s
  let parts :=
    match parts.getLast? with
    | some [] => parts.dropLast
    | _ => parts
  parts.map fun l =>
    match l.getLast? with
    | some '\r' => l.dropLast
    | _ => l

/-- Value of a decimal digit string (`"012"` ↦ `12`). -/
def digitsToNat (ds : List Char) : Nat :=
  ds.foldl (fun n c => 10 * n + (c.toNat - 48)) 0

/-- The message regex `^error:\s*(.*)$` of `main.rs:86`, applied (as at
`main.rs:93`) to an already-trimmed line: on a match, the captured group
is the text after `error:` and any following whitespace, and the caller
(`main.rs:94`) trims it again.  Returns that final trimmed message. -/
def parseErrorLine (t : List Char) : Option (List Char) :=
  if startsWithChars "error:".data t then
    some (trimChars ((t.drop 6).dropWhile Char.isWhitespace))
  else none

/-- The anchor regex `^l\.(\d+)` of `main.rs:87` together with the
`parse::<u32>().ok()).unwrap_or(0)` at `main.rs:98`: the trimmed line
must begin with `l.` followed by at least one digit; the maximal digit
run is parsed, and a value that overflows `u32` falls back to `0`. -/
def parseAnchorLine (t : List Char) : Option Nat :=
  if startsWithChars "l.".data t then
    let ds := (t.drop 2).takeWhile Char.isDigit
    if ds.isEmpty then none
    else some (if digitsToNat ds < 2 ^ 32 then digitsToNat ds else 0)
  else none

/-! ### The data model (`struct CompileError`, `main.rs:144-149`) -/

/-- `struct CompileError { line: u32, message: String, severity: String }`.
`line` is a `Nat`; every value the program stores in it is `< 2^32`. -/
structure CompileError where
  line : Nat
  message : String
  severity : String
deriving DecidableEq

/-- `CompileError::simple` (`main.rs:119-121`). -/
def CompileError.simple (msg : String) : CompileError :=
  { line := 0, message := msg, severity := "error" }

/-- `CompileError::sys` (`main.rs:122-124`); its argument is the
`to_string()` rendering of the `std::io::Error`. -/
def CompileError.sys (e : String) : CompileError :=
  { line := 0, message := e, severity := "error" }

/-! ### The diagnostic extractor (`main.rs:86-105`) -/

/-- One iteration of the `for line in log.lines()` loop at
`main.rs:91-102`.  State: the `current_message` slot and the `errors`
vector.  The line is trimmed; an `error:` match overwrites the pending
message and continues; otherwise an anchor match emits a diagnostic
(taking the pending message, or `"Compilation error"` when none) and
clears the slot; all other lines leave the state unchanged. -/
def scanStep (st : Option String × List CompileError) (line : List Char) :
    Option String × List CompileError :=
  let t := trimChars line
  match parseErrorLine t with
  | some msg => (some (String.mk msg), st.2)
  | none =>
    match parseAnchorLine t with
    | some n =>
      (none, st.2 ++ [{ line := n, message := st.1.getD "Compilation error",
                        severity := "error" }])
    | none => st

/-- The whole loop of `main.rs:88-102`:
`current_message = None`, `errors = vec![]`, then fold `scanStep`. -/
def scanLog (lines : List (List Char)) : Option String × List CompileError :=
  lines.foldl scanStep (none, [])

/-- Lines `main.rs:86-105`: scan the log; if no diagnostic was parsed,
fall back to a single diagnostic carrying the whole trimmed log
(`errors.push(CompileError::simple(log.trim()))`). -/
def extractDiagnostics (log : List Char) : List CompileError :=
  let errors := (scanLog (rustLines log)).2
  if errors.isEmpty then [CompileError.simple (String.mk (trimChars log))]
  else errors

/-! ### Paths (the `std::path` operations the orchestrator uses) -/

/-- `Path::join` / `PathBuf::push` with a relative, non-empty component:
empty base gives the component, otherwise a `/` separates (none added
after a trailing `/`). -/
def pathJoin (p c : String) : String :=
  if p = "" then c
  else if p.data.getLast? = some '/' then ⟨p.data ++ c.data⟩
  else ⟨p.data ++ '/' :: c.data⟩

/-- `Path::parent`: `none` for the empty path and for the root; otherwise
the path with its final component and the separators before it removed
(`some ""` for a bare relative file name, `some "/"` directly under the
root).  `.` components inside the path are not normalised away. -/
def rustParent (p : String) : Option String :=
  if p = "" then none
  else
    let s := p.data.reverse.dropWhile (· = '/')
    if s = [] then none
    else
      let r := s.dropWhile (· ≠ '/')
      let r2 := r.dropWhile (· = '/')
      if r2 = [] then
        if r = [] then some "" else some "/"
      else some ⟨r2.reverse⟩

/-- `Path::file_name`: the last `/`-separated component, skipping empty
and `.` components; `none` when nothing remains or the last component is
`..`. -/
def fileName (p : String) : Option (List Char) :=
  let comps := (splitOnChar '/' p.data).filter fun c => c ≠ [] && c ≠ ['.']
  match comps.getLast? with
  | some c => if c = ['.', '.'] then none else some c
  | none => none

/-- Portion of a file name before its last `.` (the name itself when it
has no `.`). -/
def dropAfterLastDot (s : List Char) : List Char :=
  match s.reverse.dropWhile (· ≠ '.') with
  | [] => s
  | _ :: rest => rest.reverse

/-- Stem of a non-empty file name, Rust `Path::file_stem` semantics: a
leading-dot name with no further dot is its own stem; otherwise
everything before the final dot. -/
def fileStemOfName (n : List Char) : List Char :=
  match n with
  | '.' :: rest => if rest.contains '.' then '.' :: dropAfterLastDot rest else n
  | _ => if n.contains '.' then dropAfterLastDot n else n

/-- `source_path.file_stem().to_string_lossy()` (`main.rs:42-44`). -/
def fileStem (p : String) : Option String :=
  (fileName p).map fun n => String.mk (fileStemOfName n)

/-! ### The environment: filesystem and subprocess responses -/

instance instDecEqExcept {ε α : Type} [DecidableEq ε] [DecidableEq α] :
    DecidableEq (Except ε α) := fun x y =>
  match x, y with
  | .error e, .error f =>
    if h : e = f then .isTrue (congrArg Except.error h)
    else .isFalse fun c => h (Except.error.inj c)
  | .ok a, .ok b =>
    if h : a = b then .isTrue (congrArg Except.ok h)
    else .isFalse fun c => h (Except.ok.inj c)
  | .error _, .ok _ => .isFalse fun c => Except.noConfusion c
  | .ok _, .error _ => .isFalse fun c => Except.noConfusion c

/-- `std::process::Output` as the code consumes it: `status.success()`
and the `from_utf8_lossy` renderings of the two captured streams. -/
structure Output where
  success : Bool
  stdout : String
  stderr : String
deriving DecidableEq

/-- One attempted system call, recorded in order of attempt. -/
inductive Effect where
  | createDir (path : String)
  | createDirAll (path : String)
  | writeFile (path : String) (contents : String)
  | runCompiler (args : List String) (cwd : Option String)
  | readFile (path : String)
deriving DecidableEq

/-- The world `compile_latex` runs against.  Each field answers one kind
of system call the Rust code makes; error payloads are the
`io::Error::to_string()` texts. -/
structure Env where
  tempDir : String
  dirExists : String → Bool
  createDir : String → Except String Unit
  createDirAll : String → Except String Unit
  writeFile : String → String → Except String Unit
  runCompiler : List String → Option String → Except String Output
  fileContents : String → Option (List Nat)

/-! ### `handle_compilation_result` (`main.rs:79-115`) -/

/-- `handle_compilation_result(output, pdf_path)` with the accumulated
effect trace threaded through.  On a failed exit status the combined log
`format!("{}\n{}", stdout, stderr)` is parsed by the extractor; on
success the artifact is read when present
(`fs::read` on the path just seen to exist — its contents under
`Env.fileContents`), else the fixed missing-artifact diagnostic
(`main.rs:113`, "compilation succeeded but the generated PDF file was
not found") is returned. -/
def handle_compilation_result (env : Env) (output : Output)
    (pdf_path : String) (tr : List Effect) :
    Except (List CompileError) (List Nat) × List Effect :=
  if !output.success then
    (.error (extractDiagnostics (output.stdout.data ++ '\n' :: output.stderr.data)), tr)
  else
    match env.fileContents pdf_path with
    | some pdf_data => (.ok pdf_data, tr ++ [.readFile pdf_path])
    | none => (.error [CompileError.simple "编译成功但未找到生成的 PDF 文件"], tr)

/-! ### `compile_latex` (`main.rs:10-76`) -/

/-- `compile_latex(latex_code, file_path)`.  Each Rust
`.map_err(|e| vec![CompileError::sys(e)])?` is a `match` on the
environment's answer; the second component is the trace of attempted
system calls.  Mode A (`file_path` absent, `main.rs:16-34`): scratch
build in `temp_dir()/tauri_latex_build`.  Mode B (`main.rs:36-75`):
file-backed build into the `AuxiliaryFiles` directory beside the
source. -/
def compile_latex (env : Env) (latex_code : String)
    (file_path : Option String) :
    Except (List CompileError) (List Nat) × List Effect :=
  match file_path with
  | none =>
    let temp_dir := pathJoin env.tempDir "tauri_latex_build"
    let tex_file_path := pathJoin temp_dir "input.tex"
    let pdf_file_path := pathJoin temp_dir "input.pdf"
    let step0 : Except String Unit :=
      if env.dirExists temp_dir then .ok () else env.createDir temp_dir
    let tr0 : List Effect :=
      if env.dirExists temp_dir then [] else [.createDir temp_dir]
    match step0 with
    | .error e => (.error [CompileError.sys e], tr0)
    | .ok _ =>
      match env.writeFile tex_file_path latex_code with
      | .error e => (.error [CompileError.sys e], tr0 ++ [.writeFile tex_file_path latex_code])
      | .ok _ =>
        let tr1 := tr0 ++ [.writeFile tex_file_path latex_code]
        match env.runCompiler [tex_file_path] (some temp_dir) with
        | .error e => (.error [CompileError.sys e], tr1 ++ [.runCompiler [tex_file_path] (some temp_dir)])
        | .ok output =>
          handle_compilation_result env output pdf_file_path
            (tr1 ++ [.runCompiler [tex_file_path] (some temp_dir)])
  | some path_str =>
    let source_path := path_str
    let parent_dir := (rustParent source_path).getD "."
    match fileStem source_path with
    | none => (.error [CompileError.simple "无法获取文件名"], [])
    | some file_stem =>
      let aux_dir := pathJoin parent_dir "AuxiliaryFiles"
      let step0 : Except String Unit :=
        if env.dirExists aux_dir then .ok () else env.createDirAll aux_dir
      let tr0 : List Effect :=
        if env.dirExists aux_dir then [] else [.createDirAll aux_dir]
      match step0 with
      | .error e => (.error [CompileError.sys e], tr0)
      | .ok _ =>
        match env.writeFile source_path latex_code with
        | .error e => (.error [CompileError.sys e], tr0 ++ [.writeFile source_path latex_code])
        | .ok _ =>
          let tr1 := tr0 ++ [.writeFile source_path latex_code]
          let args := ["-o", aux_dir, "--keep-intermediates", "--synctex", source_path]
          match env.runCompiler args none with
          | .error e => (.error [CompileError.sys e], tr1 ++ [.runCompiler args none])
          | .ok output =>
            let pdf_file_path := pathJoin aux_dir (file_stem ++ ".pdf")
            handle_compilation_result env output pdf_file_path
              (tr1 ++ [.runCompiler args none])

/-! ### Derived layout notions used in the theorem statements -/

/-- The scratch build directory `temp_dir()/tauri_latex_build`. -/
def scratchDir (env : Env) : String := pathJoin env.tempDir "tauri_latex_build"

/-- The auxiliary output directory of a file-backed source:
`parent.join("AuxiliaryFiles")` with `parent().unwrap_or(".")`. -/
def auxDirOf (p : String) : String :=
  pathJoin ((rustParent p).getD ".") "AuxiliaryFiles"

/-- Argument list and working directory of the compiler invocation each
mode performs. -/
def compilerInvocation (env : Env) (fp : Option String) :
    List String × Option String :=
  match fp with
  | none => ([pathJoin (scratchDir env) "input.tex"], some (scratchDir env))
  | some p => (["-o", auxDirOf p, "--keep-intermediates", "--synctex", p], none)

/-- The artifact path each mode expects after a successful exit. -/
def artifactPath (env : Env) (fp : Option String) : String :=
  match fp with
  | none => pathJoin (scratchDir env) "input.pdf"
  | some p => pathJoin (auxDirOf p) (((fileStem p).getD "") ++ ".pdf")

/-- The run reaches the compiler invocation: the preceding directory
preparation and source write succeed (and, file-backed, the stem
exists). -/
def reachesCompiler (env : Env) (latex : String) (fp : Option String) : Prop :=
  match fp with
  | none =>
    (env.dirExists (scratchDir env) = true ∨
      env.createDir (scratchDir env) = .ok ()) ∧
    env.writeFile (pathJoin (scratchDir env) "input.tex") latex = .ok ()
  | some p =>
    (fileStem p).isSome ∧
    (env.dirExists (auxDirOf p) = true ∨
      env.createDirAll (auxDirOf p) = .ok ()) ∧
    env.writeFile p latex = .ok ()

/-- Naive substring test (does `needle` occur contiguously in `hay`). -/
def containsSub (needle : List Char) : List Char → Bool
  | [] => needle.isEmpty
  | c :: t => startsWithChars needle (c :: t) || containsSub needle t

/-! ### Concrete environments used to witness the theorems -/

/-- Scratch-mode world: scratch dir absent (so it is created), every
call succeeds, compiler exits 0 and leaves a 4-byte artifact at
`/tmp/tauri_latex_build/input.pdf`. -/
def envOkA : Env where
  tempDir := "/tmp"
  dirExists := fun _ => false
  createDir := fun _ => .ok ()
  createDirAll := fun _ => .ok ()
  writeFile := fun _ _ => .ok ()
  runCompiler := fun _ _ => .ok ⟨true, "", ""⟩
  fileContents := fun p =>
    if p = "/tmp/tauri_latex_build/input.pdf" then some [37, 80, 68, 70] else none

/-- World where spawning the compiler fails: `Command::output()` returns
the OS's file-not-found error; everything before it succeeds. -/
def envLaunchFail : Env where
  tempDir := "/tmp"
  dirExists := fun _ => true
  createDir := fun _ => .ok ()
  createDirAll := fun _ => .ok ()
  writeFile := fun _ _ => .ok ()
  runCompiler := fun _ _ => .error "No such file or directory (os error 2)"
  fileContents := fun _ => none

/-- World where the compiler launches but exits non-zero with the
Scenario-B log on its streams. -/
def envFileB : Env where
  tempDir := "/tmp"
  dirExists := fun _ => false
  createDir := fun _ => .ok ()
  createDirAll := fun _ => .ok ()
  writeFile := fun _ _ => .ok ()
  runCompiler := fun _ _ => .ok ⟨false, "error: Undefined control sequence.", "l.3 \\foo"⟩
  fileContents := fun _ => none

/-- File-backed world: everything succeeds and the artifact appears at
`/home/u/AuxiliaryFiles/main.pdf`. -/
def envFileOk : Env where
  tempDir := "/tmp"
  dirExists := fun _ => false
  createDir := fun _ => .ok ()
  createDirAll := fun _ => .ok ()
  writeFile := fun _ _ => .ok ()
  runCompiler := fun _ _ => .ok ⟨true, "", ""⟩
  fileContents := fun p =>
    if p = "/home/u/AuxiliaryFiles/main.pdf" then some [37, 80, 68, 70, 45] else none

/-- World where the compiler reports success but produces no artifact. -/
def envNoArtifact : Env where
  tempDir := "/tmp"
  dirExists := fun _ => true
  createDir := fun _ => .ok ()
  createDirAll := fun _ => .ok ()
  writeFile := fun _ _ => .ok ()
  runCompiler := fun _ _ => .ok ⟨true, "", ""⟩
  fileContents := fun _ => none

/-! ### Lemmas about the diagnostic scan -/

lemma errorLit : "error:".data = ['e', 'r', 'r', 'o', 'r', ':'] := rfl

lemma anchorLit : "l.".data = ['l', '.'] := rfl

/-- A line whose trimmed form matches the anchor regex does not match the
message regex (the one starts with `l`, the other with `e`). -/
lemma anchor_not_error {t : List Char} {n : Nat}
    (h : parseAnchorLine t = some n) : parseErrorLine t = none := by
  unfold parseAnchorLine at h
  unfold parseErrorLine
  by_cases hl : startsWithChars "l.".data t = true
  · cases t with
    | nil => simp [anchorLit, startsWithChars] at hl
    | cons c cs =>
      have hc : c = 'l' := by
        rw [anchorLit] at hl
        simp [startsWithChars] at hl
        exact hl.1.symm
      subst hc
      simp [errorLit, startsWithChars]
  · simp [hl] at h

/-- `scanStep` on a line matching the message regex: the pending slot is
overwritten, nothing is emitted. -/
lemma scanStep_error (st : Option String) (acc : List CompileError)
    (l msg : List Char) (h : parseErrorLine (trimChars l) = some msg) :
    scanStep (st, acc) l = (some (String.mk msg), acc) := by
  simp [scanStep, h]

/-- `scanStep` on a line matching the anchor regex: one diagnostic is
emitted (pending message, or the fallback text) and the slot is
cleared. -/
lemma scanStep_anchor (st : Option String) (acc : List CompileError)
    (l : List Char) (n : Nat) (h : parseAnchorLine (trimChars l) = some n) :
    scanStep (st, acc) l =
      (none, acc ++ [⟨n, st.getD "Compilation error", "error"⟩]) := by
  simp [scanStep, anchor_not_error h, h]

/-- `scanStep` on a line matching neither regex leaves the state
unchanged. -/
lemma scanStep_neutral (st : Option String × List CompileError)
    (l : List Char) (h1 : parseErrorLine (trimChars l) = none)
    (h2 : parseAnchorLine (trimChars l) = none) : scanStep st l = st := by
  simp [scanStep, h1, h2]

/-- Folding `scanStep` over lines matching neither regex is the
identity. -/
lemma foldl_scanStep_neutral (mid : List (List Char))
    (st : Option String × List CompileError)
    (h : ∀ l ∈ mid, parseErrorLine (trimChars l) = none ∧
      parseAnchorLine (trimChars l) = none) :
    mid.foldl scanStep st = st := by
  induction mid generalizing st with
  | nil => rfl
  | cons l ls ih =>
    rw [List.foldl_cons,
      scanStep_neutral st l (h l (List.mem_cons_self l ls)).1
        (h l (List.mem_cons_self l ls)).2]
    exact ih st fun x hx => h x (List.mem_cons_of_mem l hx)

/-- One scan step never removes an already-emitted diagnostic. -/
lemma scanStep_mem (st : Option String × List CompileError) (l : List Char)
    (x : CompileError) (h : x ∈ st.2) : x ∈ (scanStep st l).2 := by
  rcases st with ⟨s, acc⟩
  rcases h1 : parseErrorLine (trimChars l) with _ | msg
  · rcases h2 : parseAnchorLine (trimChars l) with _ | n
    · rw [scanStep_neutral _ l h1 h2]
      exact h
    · rw [scanStep_anchor s acc l n h2]
      exact List.mem_append_left _ h
  · rw [scanStep_error s acc l msg h1]
    exact h

/-- The whole scan never removes an already-emitted diagnostic. -/
lemma foldl_scanStep_mem (lines : List (List Char))
    (st : Option String × List CompileError) (x : CompileError)
    (h : x ∈ st.2) : x ∈ (lines.foldl scanStep st).2 := by
  induction lines generalizing st with
  | nil => simpa
  | cons l ls ih => exact ih (scanStep st l) (scanStep_mem st l x h)

/-- Every diagnostic the scan emits has severity `"error"`. -/
lemma foldl_scanStep_severity (lines : List (List Char))
    (st : Option String × List CompileError)
    (hacc : ∀ d ∈ st.2, d.severity = "error") :
    ∀ d ∈ (lines.foldl scanStep st).2, d.severity = "error" := by
  induction lines generalizing st with
  | nil => simpa
  | cons l ls ih =>
    refine ih (scanStep st l) ?_
    intro d hd
    rcases st with ⟨s, acc⟩
    rcases h1 : parseErrorLine (trimChars l) with _ | msg
    · rcases h2 : parseAnchorLine (trimChars l) with _ | n
      · rw [scanStep_neutral _ l h1 h2] at hd
        exact hacc d hd
      · rw [scanStep_anchor s acc l n h2] at hd
        simp only [List.mem_append, List.mem_singleton] at hd
        rcases hd with hd | hd
        · exact hacc d hd
        · rw [hd]
    · rw [scanStep_error s acc l msg h1] at hd
      exact hacc d hd

/-- The extractor never returns an empty list. -/
lemma extractDiagnostics_ne_nil (log : List Char) :
    extractDiagnostics log ≠ [] := by
  rcases hE : (scanLog (rustLines log)).2 with _ | ⟨x, xs⟩
  · simp [extractDiagnostics, hE]
  · simp [extractDiagnostics, hE]

/-- Every diagnostic the extractor returns has severity `"error"`. -/
lemma extractDiagnostics_severity (log : List Char) (d : CompileError)
    (hd : d ∈ extractDiagnostics log) : d.severity = "error" := by
  rcases hE : (scanLog (rustLines log)).2 with _ | ⟨x, xs⟩
  · simp [extractDiagnostics, hE] at hd
    rw [hd]
    rfl
  · simp only [extractDiagnostics, hE, List.isEmpty_cons, if_neg] at hd
    refine foldl_scanStep_severity (rustLines log) (none, []) (by simp) d ?_
    show d ∈ (scanLog (rustLines log)).2
    rw [hE]
    exact hd

/-- A diagnostic the scan emitted is in the extractor's output. -/
lemma mem_extractDiagnostics (log : List Char) (x : CompileError)
    (h : x ∈ (scanLog (rustLines log)).2) : x ∈ extractDiagnostics log := by
  rcases hE : (scanLog (rustLines log)).2 with _ | ⟨y, ys⟩
  · rw [hE] at h
    cases h
  · rw [hE] at h
    simp only [extractDiagnostics, hE, List.isEmpty_cons]
    rw [if_neg (by simp)]
    exact h

/-! ### Lemmas about the orchestrator -/

/-- Any `Err` that `handle_compilation_result` produces is a non-empty
list of severity-`"error"` diagnostics. -/
lemma handle_error_invariant (env : Env) (out : Output) (p : String)
    (tr : List Effect) (es : List CompileError) (tr' : List Effect)
    (h : handle_compilation_result env out p tr = (.error es, tr')) :
    es ≠ [] ∧ ∀ d ∈ es, d.severity = "error" := by
  unfold handle_compilation_result at h
  cases hs : out.success with
  | false =>
    simp only [hs, Bool.not_false, if_true] at h
    simp only [Prod.mk.injEq, Except.error.injEq] at h
    obtain ⟨rfl, -⟩ := h
    exact ⟨extractDiagnostics_ne_nil _, fun d hd => extractDiagnostics_severity _ d hd⟩
  | true =>
    simp only [hs, Bool.not_true, Bool.false_eq_true, if_false] at h
    rcases hc : env.fileContents p with _ | bs <;> rw [hc] at h
    · simp only [Prod.mk.injEq, Except.error.injEq] at h
      obtain ⟨rfl, -⟩ := h
      refine ⟨by simp, ?_⟩
      intro d hd
      rw [List.mem_singleton] at hd
      rw [hd]
      rfl
    · simp at h

/-- Any `Err` that `compile_latex` produces is a non-empty list of
severity-`"error"` diagnostics. -/
lemma compile_error_invariant (env : Env) (latex : String) (fp : Option String)
    (es : List CompileError) (tr : List Effect)
    (h : compile_latex env latex fp = (.error es, tr)) :
    es ≠ [] ∧ ∀ d ∈ es, d.severity = "error" := by
  have sysCase : ∀ e : String, ([CompileError.sys e] ≠ ([] : List CompileError)) ∧
      ∀ d ∈ [CompileError.sys e], d.severity = "error" := by
    intro e
    refine ⟨by simp, ?_⟩
    intro d hd
    rw [List.mem_singleton] at hd
    rw [hd]
    rfl
  cases fp with
  | none =>
    simp only [compile_latex] at h
    split at h
    · next e _ =>
      simp only [Prod.mk.injEq, Except.error.injEq] at h
      obtain ⟨rfl, -⟩ := h
      exact sysCase e
    · split at h
      · next e _ =>
        simp only [Prod.mk.injEq, Except.error.injEq] at h
        obtain ⟨rfl, -⟩ := h
        exact sysCase e
      · split at h
        · next e _ =>
          simp only [Prod.mk.injEq, Except.error.injEq] at h
          obtain ⟨rfl, -⟩ := h
          exact sysCase e
        · exact handle_error_invariant _ _ _ _ _ _ h
  | some p =>
    simp only [compile_latex] at h
    split at h
    · simp only [Prod.mk.injEq, Except.error.injEq] at h
      obtain ⟨rfl, -⟩ := h
      refine ⟨by simp, ?_⟩
      intro d hd
      rw [List.mem_singleton] at hd
      rw [hd]
      rfl
    · split at h
      · next e _ =>
        simp only [Prod.mk.injEq, Except.error.injEq] at h
        obtain ⟨rfl, -⟩ := h
        exact sysCase e
      · split at h
        · next e _ =>
          simp only [Prod.mk.injEq, Except.error.injEq] at h
          obtain ⟨rfl, -⟩ := h
          exact sysCase e
        · split at h
          · next e _ =>
            simp only [Prod.mk.injEq, Except.error.injEq] at h
            obtain ⟨rfl, -⟩ := h
            exact sysCase e
          · exact handle_error_invariant _ _ _ _ _ _ h

/-- The outcome component of `handle_compilation_result` does not depend
on the trace argument. -/
lemma handle_fst (env : Env) (out : Output) (p : String) (tr : List Effect) :
    (handle_compilation_result env out p tr).1 =
      (handle_compilation_result env out p []).1 := by
  cases hs : out.success with
  | false => simp [handle_compilation_result, hs]
  | true =>
    simp only [handle_compilation_result, hs, Bool.not_true, Bool.false_eq_true, if_false]
    cases env.fileContents p <;> rfl

/-- When the setup steps succeed and spawning the compiler fails,
`compile_latex` returns exactly the one wrapped launch error. -/
lemma compile_run_error (env : Env) (latex : String) (fp : Option String)
    (e : String) (hr : reachesCompiler env latex fp)
    (hl : env.runCompiler (compilerInvocation env fp).1
      (compilerInvocation env fp).2 = .error e) :
    (compile_latex env latex fp).1 = .error [CompileError.sys e] := by
  cases fp with
  | none =>
    obtain ⟨hdir, hw⟩ := hr
    simp only [compilerInvocation, scratchDir] at hl
    simp only [scratchDir] at hw
    simp only [compile_latex]
    cases hd : env.dirExists (pathJoin env.tempDir "tauri_latex_build") with
    | true => simp only [hd, if_true, hw, hl]
    | false =>
      rcases hdir with hdir | hcd
      · rw [scratchDir, hd] at hdir
        cases hdir
      · rw [scratchDir] at hcd
        simp only [hd, Bool.false_eq_true, if_false, hcd, hw, hl]
  | some p =>
    obtain ⟨hstem, hdir, hw⟩ := hr
    obtain ⟨s, hs⟩ := Option.isSome_iff_exists.mp hstem
    simp only [compilerInvocation, auxDirOf] at hl
    simp only [compile_latex, hs]
    cases hd : env.dirExists (pathJoin ((rustParent p).getD ".") "AuxiliaryFiles") with
    | true => simp only [hd, if_true, hw, hl]
    | false =>
      rcases hdir with hdir | hcd
      · rw [auxDirOf, hd] at hdir
        cases hdir
      · rw [auxDirOf] at hcd
        simp only [hd, Bool.false_eq_true, if_false, hcd, hw, hl]

/-- When the setup steps succeed and the compiler subprocess completes,
the outcome is `handle_compilation_result` on its output at the mode's
expected artifact path. -/
lemma compile_run_ok (env : Env) (latex : String) (fp : Option String)
    (out : Output) (hr : reachesCompiler env latex fp)
    (hc : env.runCompiler (compilerInvocation env fp).1
      (compilerInvocation env fp).2 = .ok out) :
    (compile_latex env latex fp).1 =
      (handle_compilation_result env out (artifactPath env fp) []).1 := by
  cases fp with
  | none =>
    obtain ⟨hdir, hw⟩ := hr
    simp only [compilerInvocation, scratchDir] at hc
    simp only [scratchDir] at hw
    simp only [compile_latex, artifactPath, scratchDir]
    cases hd : env.dirExists (pathJoin env.tempDir "tauri_latex_build") with
    | true =>
      simp only [hd, if_true, hw, hc]
      exact handle_fst _ _ _ _
    | false =>
      rcases hdir with hdir | hcd
      · rw [scratchDir, hd] at hdir
        cases hdir
      · rw [scratchDir] at hcd
        simp only [hd, Bool.false_eq_true, if_false, hcd, hw, hc]
        exact handle_fst _ _ _ _
  | some p =>
    obtain ⟨hstem, hdir, hw⟩ := hr
    obtain ⟨s, hs⟩ := Option.isSome_iff_exists.mp hstem
    simp only [compilerInvocation, auxDirOf] at hc
    simp only [compile_latex, artifactPath, auxDirOf, hs, Option.getD_some]
    cases hd : env.dirExists (pathJoin ((rustParent p).getD ".") "AuxiliaryFiles") with
    | true =>
      simp only [hd, if_true, hw, hc]
      exact handle_fst _ _ _ _
    | false =>
      rcases hdir with hdir | hcd
      · rw [auxDirOf, hd] at hdir
        cases hdir
      · rw [auxDirOf] at hcd
        simp only [hd, Bool.false_eq_true, if_false, hcd, hw, hc]
        exact handle_fst _ _ _ _

/-! ### The claims -/

/-- Claim C1: for every log text containing a well-formed `error: MSG` /
`l.N` pair — a message line later followed, not necessarily adjacently,
by an anchor line, with no other matched line between them (per the
spec, only the most recent unconsumed message is kept, so an intervening
match would re-pair them) — the extraction over that log yields a
Diagnostic whose message is MSG, whose line is N, and whose severity is
`"error"`. -/
theorem extract_wellFormed_pair (log : List Char)
    (pre mid post : List (List Char)) (e a : List Char)
    (msg : List Char) (n : Nat)
    (hsplit : rustLines log = pre ++ e :: (mid ++ a :: post))
    (he : parseErrorLine (trimChars e) = some msg)
    (ha : parseAnchorLine (trimChars a) = some n)
    (hmid : ∀ l ∈ mid, parseErrorLine (trimChars l) = none ∧
      parseAnchorLine (trimChars l) = none) :
    (⟨n, String.mk msg, "error"⟩ : CompileError) ∈ extractDiagnostics log := by
  refine mem_extractDiagnostics log _ ?_
  rw [scanLog, hsplit, List.foldl_append]
  rcases h0 : List.foldl scanStep (none, []) pre with ⟨st₀, acc₀⟩
  rw [List.foldl_cons, scanStep_error st₀ acc₀ e msg he, List.foldl_append,
    foldl_scanStep_neutral mid _ hmid, List.foldl_cons,
    scanStep_anchor _ _ a n ha]
  refine foldl_scanStep_mem post _ _ ?_
  simp

/-- Witness for C1 at the spec's Scenario-B log
`"error: Undefined control sequence.\nl.3 \foo"`. -/
theorem extract_wellFormed_pair_witness :
    (⟨3, "Undefined control sequence.", "error"⟩ : CompileError) ∈
      extractDiagnostics "error: Undefined control sequence.\nl.3 \\foo".data :=
  extract_wellFormed_pair _ [] [] []
    "error: Undefined control sequence.".data "l.3 \\foo".data
    "Undefined control sequence.".data 3
    (by decide) (by decide) (by decide) (by simp)

/-- Claim C2: if the line scan produces zero diagnostics, extraction
emits exactly one fallback diagnostic with line `0` and message the full
trimmed log text; consequently every `Err` outcome of `compile_latex`
carries at least one diagnostic. -/
theorem failure_carries_diagnostics :
    (∀ log : List Char, (scanLog (rustLines log)).2 = [] →
      extractDiagnostics log =
        [{ line := 0, message := String.mk (trimChars log), severity := "error" }]) ∧
    (∀ (env : Env) (latex : String) (fp : Option String)
      (es : List CompileError) (tr : List Effect),
      compile_latex env latex fp = (.error es, tr) → es ≠ []) := by
  constructor
  · intro log h
    simp [extractDiagnostics, h, CompileError.simple]
  · intro env latex fp es tr h
    exact (compile_error_invariant env latex fp es tr h).1

/-- Witness for C2: a log whose only `error:` line is never anchored
scans to zero diagnostics and falls back to the whole trimmed log; and a
failed launch yields a non-empty diagnostic list. -/
theorem failure_carries_diagnostics_witness :
    extractDiagnostics " error: unanchored \nrest".data =
      [{ line := 0, message := "error: unanchored \nrest", severity := "error" }] ∧
    [CompileError.sys "No such file or directory (os error 2)"] ≠ ([] : List CompileError) := by
  constructor
  · exact failure_carries_diagnostics.1 " error: unanchored \nrest".data (by decide)
  · exact failure_carries_diagnostics.2 envLaunchFail "x" none
      [CompileError.sys "No such file or directory (os error 2)"]
      [Effect.writeFile "/tmp/tauri_latex_build/input.tex" "x",
       Effect.runCompiler ["/tmp/tauri_latex_build/input.tex"]
         (some "/tmp/tauri_latex_build")]
      (by decide)

/-- Claim C3: an anchor line scanned while no unconsumed pending message
exists yields the exact message `"Compilation error"`, and emitting a
diagnostic always clears the pending message. -/
theorem anchor_without_pending_fallback :
    (∀ (log : List Char) (pre post : List (List Char)) (a : List Char) (n : Nat),
      rustLines log = pre ++ a :: post →
      (List.foldl scanStep (none, []) pre).1 = none →
      parseAnchorLine (trimChars a) = some n →
      (⟨n, "Compilation error", "error"⟩ : CompileError) ∈ extractDiagnostics log) ∧
    (∀ (st : Option String) (acc : List CompileError) (l : List Char) (n : Nat),
      parseAnchorLine (trimChars l) = some n →
      (scanStep (st, acc) l).1 = none) := by
  constructor
  · intro log pre post a n hsplit hpending ha
    refine mem_extractDiagnostics log _ ?_
    rw [scanLog, hsplit, List.foldl_append]
    rcases h0 : List.foldl scanStep (none, []) pre with ⟨st₀, acc₀⟩
    rw [h0] at hpending
    simp only at hpending
    rw [hpending] at h0 ⊢
    rw [List.foldl_cons, scanStep_anchor none acc₀ a n ha]
    refine foldl_scanStep_mem post _ _ ?_
    simp
  · intro st acc l n ha
    rw [scanStep_anchor st acc l n ha]

/-- Witness for C3: the log `"junk\nl.7 y"` has no message line before
its anchor, so the emitted diagnostic reads `"Compilation error"`; and a
step on an anchor line clears a pending message. -/
theorem anchor_without_pending_fallback_witness :
    (⟨7, "Compilation error", "error"⟩ : CompileError) ∈
      extractDiagnostics "junk\nl.7 y".data ∧
    (scanStep (some "pending", []) "l.9".data).1 = none := by
  constructor
  · exact anchor_without_pending_fallback.1 "junk\nl.7 y".data
      ["junk".data] [] "l.7 y".data 7 (by decide) (by decide) (by decide)
  · exact anchor_without_pending_fallback.2 (some "pending") [] "l.9".data 9 (by decide)

/-- The trace `handle_compilation_result` returns extends the trace it
was given. -/
lemma handle_trace (env : Env) (out : Output) (p : String) (tr : List Effect) :
    ∃ ex, (handle_compilation_result env out p tr).2 = tr ++ ex := by
  cases hs : out.success with
  | false => exact ⟨[], by simp [handle_compilation_result, hs]⟩
  | true =>
    rcases hc : env.fileContents p with _ | bs
    · exact ⟨[], by simp [handle_compilation_result, hs, hc]⟩
    · exact ⟨[.readFile p], by simp [handle_compilation_result, hs, hc]⟩

/-- Counterexample to claim C4 as stated: with the OS reporting the
standard file-not-found text for the spawn, `compile_latex` surfaces a
launch Failure whose single diagnostic message is that OS text, which
does not contain the binary name `tectonic`. -/
theorem launch_failure_message_counterexample :
    (compile_latex envLaunchFail "x" none).1 =
      .error [⟨0, "No such file or directory (os error 2)", "error"⟩] ∧
    containsSub "tectonic".data
      "No such file or directory (os error 2)".data = false := by
  exact ⟨by decide, by decide⟩

/-- Claim C4 (amended): when launching the compiler subprocess fails,
`compile_latex` returns a Failure with exactly one diagnostic — line
`0`, severity `"error"`, message the launch error's own description text
verbatim (`io::Error::to_string()`); the code adds no remediation text,
so the message names `tectonic` only if the OS text happens to. -/
theorem launch_failure_single_sys_diagnostic (env : Env) (latex : String)
    (fp : Option String) (e : String) (hr : reachesCompiler env latex fp)
    (hl : env.runCompiler (compilerInvocation env fp).1
      (compilerInvocation env fp).2 = .error e) :
    (compile_latex env latex fp).1 = .error [CompileError.sys e] :=
  compile_run_error env latex fp e hr hl

/-- Witness for C4's amended claim at a concrete failing spawn. -/
theorem launch_failure_single_sys_diagnostic_witness :
    (compile_latex envLaunchFail "x" none).1 =
      .error [CompileError.sys "No such file or directory (os error 2)"] :=
  launch_failure_single_sys_diagnostic envLaunchFail "x" none
    "No such file or directory (os error 2)" ⟨Or.inl rfl, rfl⟩ rfl

/-- Claim C5: after a successful compiler exit, a missing artifact file
yields a Failure with exactly one diagnostic (line `0`, message
`"编译成功但未找到生成的 PDF 文件"` — "compiled successfully but the
generated PDF file was not found"); an existing artifact yields Success
with its full byte contents. -/
theorem artifact_postcondition (env : Env) (latex : String)
    (fp : Option String) (out : Output) (hr : reachesCompiler env latex fp)
    (hc : env.runCompiler (compilerInvocation env fp).1
      (compilerInvocation env fp).2 = .ok out)
    (hsucc : out.success = true) :
    (env.fileContents (artifactPath env fp) = none →
      (compile_latex env latex fp).1 =
        .error [{ line := 0, message := "编译成功但未找到生成的 PDF 文件",
                  severity := "error" }]) ∧
    (∀ bs, env.fileContents (artifactPath env fp) = some bs →
      (compile_latex env latex fp).1 = .ok bs) := by
  have h := compile_run_ok env latex fp out hr hc
  constructor
  · intro hnone
    rw [h]
    simp [handle_compilation_result, hsucc, hnone, CompileError.simple]
  · intro bs hsome
    rw [h]
    simp [handle_compilation_result, hsucc, hsome]

/-- Witness for C5: one world with a successful exit and no artifact,
one with the artifact present. -/
theorem artifact_postcondition_witness :
    (compile_latex envNoArtifact "x" none).1 =
      .error [{ line := 0, message := "编译成功但未找到生成的 PDF 文件",
                severity := "error" }] ∧
    (compile_latex envOkA "x" none).1 =
      .ok [37, 80, 68, 70] := by
  constructor
  · exact (artifact_postcondition envNoArtifact "x" none ⟨true, "", ""⟩
      ⟨Or.inl rfl, rfl⟩ rfl rfl).1 rfl
  · exact (artifact_postcondition envOkA "x" none ⟨true, "", ""⟩
      ⟨Or.inr rfl, rfl⟩ rfl rfl).2 [37, 80, 68, 70] (by decide)

/-- Claim C6: a file-backed request whose path has no extractable stem
fails request validation immediately: the fixed single diagnostic is
returned and the effect trace is empty — no directory creation, no file
write, no subprocess. -/
theorem missing_stem_validation_failure (env : Env) (latex : String)
    (p : String) (h : fileStem p = none) :
    compile_latex env latex (some p) =
      (.error [{ line := 0, message := "无法获取文件名", severity := "error" }],
        []) := by
  simp [compile_latex, h, CompileError.simple]

/-- Witness for C6 at the rootless path `"/"`. -/
theorem missing_stem_validation_failure_witness :
    compile_latex envFileB "y" (some "/") =
      (.error [{ line := 0, message := "无法获取文件名", severity := "error" }],
        []) :=
  missing_stem_validation_failure envFileB "y" "/" (by decide)

/-- Claim C7: for a file-backed request with a valid stem, the output
directory is `parent.join("AuxiliaryFiles")` (created recursively
exactly when absent), the compiler is invoked as
`tectonic -o <auxDir> --keep-intermediates --synctex <sourcePath>`, and
the expected artifact is `<auxDir>/<stem>.pdf`; on success its bytes are
returned and the effect trace is exactly these steps in order. -/
theorem filebacked_layout (env : Env) (latex : String) (p s : String)
    (out : Output) (bs : List Nat) (b : Bool)
    (hstem : fileStem p = some s)
    (hd : env.dirExists (auxDirOf p) = b)
    (hcd : b = false → env.createDirAll (auxDirOf p) = .ok ())
    (hw : env.writeFile p latex = .ok ())
    (hrun : env.runCompiler
      ["-o", auxDirOf p, "--keep-intermediates", "--synctex", p] none = .ok out)
    (hsucc : out.success = true)
    (hart : env.fileContents (pathJoin (auxDirOf p) (s ++ ".pdf")) = some bs) :
    compile_latex env latex (some p) =
      (.ok bs,
        (if b then [] else [Effect.createDirAll (auxDirOf p)]) ++
          [Effect.writeFile p latex,
           Effect.runCompiler
             ["-o", auxDirOf p, "--keep-intermediates", "--synctex", p] none,
           Effect.readFile (pathJoin (auxDirOf p) (s ++ ".pdf"))]) ∧
    auxDirOf p = pathJoin ((rustParent p).getD ".") "AuxiliaryFiles" := by
  refine ⟨?_, rfl⟩
  simp only [auxDirOf] at hd hcd hrun hart ⊢
  simp only [compile_latex, hstem]
  cases b with
  | true =>
    simp only [hd, if_true, hw, hrun, handle_compilation_result, hsucc,
      Bool.not_true, Bool.false_eq_true, if_false, hart]
    simp
  | false =>
    simp only [hd, Bool.false_eq_true, if_false, hcd rfl, hw, hrun,
      handle_compilation_result, hsucc, Bool.not_true, hart]
    simp

/-- Witness for C7 on `/home/u/main.tex` with the auxiliary directory
initially absent. -/
theorem filebacked_layout_witness :
    compile_latex envFileOk "y" (some "/home/u/main.tex") =
      (.ok [37, 80, 68, 70, 45],
        [Effect.createDirAll "/home/u/AuxiliaryFiles",
         Effect.writeFile "/home/u/main.tex" "y",
         Effect.runCompiler
           ["-o", "/home/u/AuxiliaryFiles", "--keep-intermediates",
            "--synctex", "/home/u/main.tex"] none,
         Effect.readFile "/home/u/AuxiliaryFiles/main.pdf"]) ∧
    auxDirOf "/home/u/main.tex" =
      pathJoin ((rustParent "/home/u/main.tex").getD ".") "AuxiliaryFiles" := by
  have h := filebacked_layout envFileOk "y" "/home/u/main.tex" "main"
    ⟨true, "", ""⟩ [37, 80, 68, 70, 45] false (by decide) rfl (fun _ => rfl)
    rfl rfl rfl (by decide)
  exact ⟨by simpa using h.1, h.2⟩

/-- Claim C8: round-trip on the success path — if the compiler exits
successfully and the expected artifact file holds exactly these bytes,
`compile_latex` returns Success carrying exactly those bytes. -/
theorem success_roundtrip (env : Env) (latex : String) (fp : Option String)
    (out : Output) (bs : List Nat) (hr : reachesCompiler env latex fp)
    (hc : env.runCompiler (compilerInvocation env fp).1
      (compilerInvocation env fp).2 = .ok out)
    (hsucc : out.success = true)
    (hart : env.fileContents (artifactPath env fp) = some bs) :
    (compile_latex env latex fp).1 = .ok bs := by
  rw [compile_run_ok env latex fp out hr hc]
  simp [handle_compilation_result, hsucc, hart]

/-- Witness for C8 in the scratch world with a 4-byte `%PDF` artifact. -/
theorem success_roundtrip_witness :
    (compile_latex envOkA "PDFsrc" none).1 = .ok [37, 80, 68, 70] :=
  success_roundtrip envOkA "PDFsrc" none ⟨true, "", ""⟩ [37, 80, 68, 70]
    ⟨Or.inr rfl, rfl⟩ rfl rfl (by decide)

/-- Claim C9: every diagnostic `compile_latex` ever returns has severity
exactly `"error"`, and the two constructors that produce diagnostics
from anything other than a parsed anchor line (`simple` and `sys`)
always set line `0`. -/
theorem diagnostics_severity_line_invariant :
    (∀ (env : Env) (latex : String) (fp : Option String)
        (es : List CompileError) (tr : List Effect),
      compile_latex env latex fp = (.error es, tr) →
      ∀ d ∈ es, d.severity = "error") ∧
    (∀ m : String, (CompileError.simple m).line = 0 ∧
      (CompileError.simple m).severity = "error") ∧
    (∀ e : String, (CompileError.sys e).line = 0 ∧
      (CompileError.sys e).severity = "error") :=
  ⟨fun env latex fp es tr h => (compile_error_invariant env latex fp es tr h).2,
   fun _ => ⟨rfl, rfl⟩, fun _ => ⟨rfl, rfl⟩⟩

/-- Witness for C9 on a concrete launch-failure run. -/
theorem diagnostics_severity_line_invariant_witness :
    (⟨0, "No such file or directory (os error 2)", "error"⟩ : CompileError).severity
        = "error" ∧
    (CompileError.simple "m").line = 0 ∧ (CompileError.sys "b").line = 0 := by
  refine ⟨?_, (diagnostics_severity_line_invariant.2.1 "m").1,
    (diagnostics_severity_line_invariant.2.2 "b").1⟩
  refine diagnostics_severity_line_invariant.1 envLaunchFail "x" none
    [⟨0, "No such file or directory (os error 2)", "error"⟩]
    [Effect.writeFile "/tmp/tauri_latex_build/input.tex" "x",
     Effect.runCompiler ["/tmp/tauri_latex_build/input.tex"]
       (some "/tmp/tauri_latex_build")]
    (by decide) _ (by simp)

/-- Claim C10: in file-backed mode (once validation and directory
preparation pass) the request's source text is written to
`sourceLocation` before the compiler runs: the effect trace is the
optional directory creation, then the write, then the rest — and this
holds for every downstream outcome, Failure included; no effect ever
removes or rewrites the written file. -/
theorem source_overwrite_precedes_compiler (env : Env) (latex : String)
    (p s : String) (hstem : fileStem p = some s)
    (hdir : env.dirExists (auxDirOf p) = true ∨
      env.createDirAll (auxDirOf p) = .ok ())
    (hw : env.writeFile p latex = .ok ()) :
    ∃ t, (compile_latex env latex (some p)).2 =
      (if env.dirExists (auxDirOf p) then [] else [Effect.createDirAll (auxDirOf p)]) ++
        Effect.writeFile p latex :: t := by
  simp only [auxDirOf] at hdir hw ⊢
  simp only [compile_latex, hstem]
  cases hd : env.dirExists (pathJoin ((rustParent p).getD ".") "AuxiliaryFiles") with
  | true =>
    simp only [hd, if_true, hw]
    rcases hrc : env.runCompiler
        ["-o", pathJoin ((rustParent p).getD ".") "AuxiliaryFiles",
         "--keep-intermediates", "--synctex", p] none with e | out
    · refine ⟨[Effect.runCompiler
        ["-o", pathJoin ((rustParent p).getD ".") "AuxiliaryFiles",
         "--keep-intermediates", "--synctex", p] none], ?_⟩
      simp
    · obtain ⟨ex, hex⟩ := handle_trace env out
        (pathJoin (pathJoin ((rustParent p).getD ".") "AuxiliaryFiles")
          (s ++ ".pdf")) _
      refine ⟨Effect.runCompiler
        ["-o", pathJoin ((rustParent p).getD ".") "AuxiliaryFiles",
         "--keep-intermediates", "--synctex", p] none :: ex, ?_⟩
      rw [hex]
      simp
  | false =>
    rcases hdir with hdir | hcd
    · rw [hd] at hdir
      cases hdir
    · simp only [hd, Bool.false_eq_true, if_false, hcd, hw]
      rcases hrc : env.runCompiler
          ["-o", pathJoin ((rustParent p).getD ".") "AuxiliaryFiles",
           "--keep-intermediates", "--synctex", p] none with e | out
      · refine ⟨[Effect.runCompiler
          ["-o", pathJoin ((rustParent p).getD ".") "AuxiliaryFiles",
           "--keep-intermediates", "--synctex", p] none], ?_⟩
        simp
      · obtain ⟨ex, hex⟩ := handle_trace env out
          (pathJoin (pathJoin ((rustParent p).getD ".") "AuxiliaryFiles")
            (s ++ ".pdf")) _
        refine ⟨Effect.runCompiler
          ["-o", pathJoin ((rustParent p).getD ".") "AuxiliaryFiles",
           "--keep-intermediates", "--synctex", p] none :: ex, ?_⟩
        rw [hex]
        simp

/-- Witness for C10: a file-backed run whose compiler exits non-zero (a
Failure outcome) still has the source overwrite in its trace, right
after the directory creation. -/
theorem source_overwrite_precedes_compiler_witness :
    ∃ t, (compile_latex envFileB "y" (some "/home/u/main.tex")).2 =
      (if envFileB.dirExists (auxDirOf "/home/u/main.tex") then []
       else [Effect.createDirAll (auxDirOf "/home/u/main.tex")]) ++
        Effect.writeFile "/home/u/main.tex" "y" :: t :=
  source_overwrite_precedes_compiler envFileB "y" "/home/u/main.tex" "main"
    (by decide) (Or.inr rfl) rfl
